import Mathlib

/-!
Shallow embedding of the multiplayer viewport client (`src/main.js`) and
proofs about it.

JS objects used as string-keyed dictionaries (`gameState.players`,
`gameState.avatars`, `pressedKeys`) are embedded as association lists
`List (String × α)` in key insertion order, with `lookupKey` for property
reads and `setKey` for property writes (overwrite the existing key in
place, append a fresh key at the end — the JS insertion-order semantics).
Numeric world coordinates are embedded as `Rat` (JS numbers in this
program stay well inside the exactly-representable range and only use
`+ - * / min max`). Outbound network traffic is embedded as the list of
messages a call produces; the WebSocket is only ever inspected through
`readyState`, so it is embedded as `Option ReadyState`.
-/

set_option autoImplicit false

namespace MMO

/-- Property read on a JS object embedded as an association list. -/
def lookupKey {α : Type} : List (String × α) → String → Option α
  | [], _ => none
  | (k', v) :: rest, k => if k' = k then some v else lookupKey rest k

/-- Property write on a JS object: overwrite the existing key in place,
append a fresh key at the end (JS insertion-order semantics). -/
def setKey {α : Type} : List (String × α) → String → α → List (String × α)
  | [], k, v => [(k, v)]
  | (k', v') :: rest, k, v =>
    if k' = k then (k, v) :: rest else (k', v') :: setKey rest k v

/-- JS `Object.assign(target, source)`: write every key/value pair of
`source` into `target`, left to right. Used by the `players_moved`
handler (`Object.assign(gameState.players, message.players)`). -/
def objectAssign {α : Type} (target source : List (String × α)) : List (String × α) :=
  source.foldl (fun acc kv => setKey acc kv.1 kv.2) target

/-- A player record as delivered by the server and stored in
`gameState.players`. -/
structure Player where
  id : String
  username : String
  x : Rat
  y : Rat
  facing : String
  isMoving : Bool
  avatar : String
  animationFrame : Nat
deriving DecidableEq, Repr

/-- One slot of an avatar frame array: either the raw base64 `data:` URI
string shipped by the server, or the decoded `Image` handle that
`preloadAvatarImages` replaces it with (identified by its `src`). -/
inductive FrameSlot where
  | raw (data : String)
  | img (src : String)
deriving DecidableEq, Repr

/-- An avatar definition: name plus per-direction frame arrays. -/
structure Avatar where
  name : String
  frames : List (String × List FrameSlot)
deriving DecidableEq, Repr

/-- The viewport rectangle in world pixels. -/
structure Viewport where
  x : Rat
  y : Rat
  width : Rat
  height : Rat
deriving DecidableEq, Repr

/-- The mutable `gameState` object (the fields the message handlers
touch; `worldImage` is render-only and not part of the reconciliation
state). -/
structure GameState where
  myPlayerId : Option String
  players : List (String × Player)
  avatars : List (String × Avatar)
  viewport : Viewport
deriving DecidableEq, Repr

/-- The function `centerViewportOnMyAvatar`: recenter the viewport on the local
player, clamped to the 2048×2048 world; early-returns (state unchanged)
when there is no local id or the local player is missing from the map. -/
def centerViewportOnMyAvatar (st : GameState) : GameState :=
  match st.myPlayerId with
  | none => st
  | some pid =>
    match lookupKey st.players pid with
    | none => st
    | some myPlayer =>
      let worldWidth : Rat := 2048
      let worldHeight : Rat := 2048
      let targetX := myPlayer.x - st.viewport.width / 2
      let targetY := myPlayer.y - st.viewport.height / 2
      let clampedX := max 0 (min targetX (worldWidth - st.viewport.width))
      let clampedY := max 0 (min targetY (worldHeight - st.viewport.height))
      { st with viewport := { st.viewport with x := clampedX, y := clampedY } }

/-- The `WebSocket.readyState` values. -/
inductive ReadyState where
  | connecting
  | opened
  | closing
  | closed
deriving DecidableEq, Repr

/-- The global `ws` variable: `none` before `connectToServer`, otherwise
a socket in some ready state (`opened` embeds `WebSocket.OPEN`). -/
def wsIsOpen : Option ReadyState → Bool
  | some ReadyState.opened => true
  | _ => false

/-- An outbound wire message (`join_game{username}`, `move{direction}`,
`stop`). -/
inductive OutMsg where
  | join (username : String)
  | move (direction : String)
  | stop
deriving DecidableEq, Repr

/-- The function `sendMoveCommand`: guarded by `ws && ws.readyState === OPEN`; the
call's only effect is the message it puts on the wire (it reads nothing
and writes nothing else), so it is embedded as the list of messages
sent. -/
def sendMoveCommand (ws : Option ReadyState) (direction : String) : List OutMsg :=
  if wsIsOpen ws then [OutMsg.move direction] else []

/-- The function `sendStopCommand`: same guard and embedding as `sendMoveCommand`. -/
def sendStopCommand (ws : Option ReadyState) : List OutMsg :=
  if wsIsOpen ws then [OutMsg.stop] else []

/-- The `movementKeys` table: raw `event.key` → logical direction, in
source order. -/
def movementKeys : List (String × String) :=
  [("ArrowUp", "up"), ("w", "up"), ("W", "up"),
   ("ArrowDown", "down"), ("s", "down"), ("S", "down"),
   ("ArrowLeft", "left"), ("a", "left"), ("A", "left"),
   ("ArrowRight", "right"), ("d", "right"), ("D", "right")]

/-- Truthiness of `pressedKeys[key]` (absent ≡ `undefined` ≡ falsy). -/
def isHeld (pressed : List (String × Bool)) (key : String) : Bool :=
  (lookupKey pressed key).getD false

/-- The check `Object.keys(pressedKeys).some(k => pressedKeys[k])`: is
any movement key currently held? -/
def anyHeld (pressed : List (String × Bool)) : Bool :=
  pressed.any (fun kv => kv.2)

/-- The `directions` array built by `sendMovementCommand`: iterate the
keys of `pressedKeys` in insertion order and collect
`movementKeys[key]` for each truthy entry. -/
def directionsOf (pressed : List (String × Bool)) : List String :=
  pressed.filterMap (fun kv => if kv.2 then lookupKey movementKeys kv.1 else none)

/-- JS `Array.prototype.includes` on an array of direction strings. -/
def jsIncludes (l : List String) (x : String) : Bool :=
  l.any (fun d => d == x)

/-- The function `getPrimaryDirection`: horizontal directions win (`find` returns
the first element that is `left` or `right`); otherwise
`directions[0]` (callers only invoke it on a non-empty array, so the
`""` defaults are never reached there). -/
def getPrimaryDirection (directions : List String) : String :=
  if jsIncludes directions "left" || jsIncludes directions "right" then
    (directions.find? (fun d => d == "left" || d == "right")).getD ""
  else
    directions.getD 0 ""

/-- The function `sendMovementCommand`: resolve the held keys to one direction and
send it; silent when the socket is not open or no direction is held. -/
def sendMovementCommand (ws : Option ReadyState) (pressed : List (String × Bool)) :
    List OutMsg :=
  if wsIsOpen ws then
    let directions := directionsOf pressed
    if directions.length = 0 then []
    else if 1 < directions.length then
      sendMoveCommand ws (getPrimaryDirection directions)
    else
      sendMoveCommand ws (directions.getD 0 "")
  else []

/-- The input controller's mutable state: the `pressedKeys` object and
whether `movementInterval` is currently non-null. -/
structure InputState where
  pressed : List (String × Bool)
  timerOn : Bool
deriving DecidableEq, Repr

/-- A keyboard event delivered to the `keydown`/`keyup` listeners. -/
inductive KeyEvent where
  | down (key : String)
  | up (key : String)
deriving DecidableEq, Repr

/-- The `keydown` listener: for a mapped key not already pressed, mark
it held and call `startMovementLoop`, which (only when the interval is
not already running) sends one movement command immediately and starts
the 50 ms poll timer. -/
def handleKeydown (ws : Option ReadyState) (s : InputState) (key : String) :
    InputState × List OutMsg :=
  match lookupKey movementKeys key with
  | none => (s, [])
  | some _ =>
    if isHeld s.pressed key then (s, [])
    else
      let pressed := setKey s.pressed key true
      if s.timerOn then ({ s with pressed := pressed }, [])
      else ({ pressed := pressed, timerOn := true }, sendMovementCommand ws pressed)

/-- The `keyup` listener: for a mapped key, write `false` into
`pressedKeys`; when no movement key remains held, call
`stopMovementLoop` (cancel the timer) and `sendStopCommand`. -/
def handleKeyup (ws : Option ReadyState) (s : InputState) (key : String) :
    InputState × List OutMsg :=
  match lookupKey movementKeys key with
  | none => (s, [])
  | some _ =>
    let pressed := setKey s.pressed key false
    if anyHeld pressed then ({ s with pressed := pressed }, [])
    else ({ pressed := pressed, timerOn := false }, sendStopCommand ws)

/-- Dispatch one keyboard event to the matching listener. -/
def stepEvent (ws : Option ReadyState) (s : InputState) : KeyEvent → InputState × List OutMsg
  | KeyEvent.down key => handleKeydown ws s key
  | KeyEvent.up key => handleKeyup ws s key

/-- Run a sequence of keyboard events, accumulating the outbound
messages in order. -/
def runEvents (ws : Option ReadyState) (s : InputState) :
    List KeyEvent → InputState × List OutMsg
  | [] => (s, [])
  | e :: es =>
    let r := stepEvent ws s e
    let rest := runEvents ws r.1 es
    (rest.1, r.2 ++ rest.2)

/-- Number of `stop` messages in an outbound message list. -/
def countStops (msgs : List OutMsg) : Nat :=
  (msgs.filter (fun m => m = OutMsg.stop)).length

/-- Number of transitions of the held-key set from non-empty to empty
along a run of keyboard events. -/
def countIdleTransitions (ws : Option ReadyState) (s : InputState) :
    List KeyEvent → Nat
  | [] => 0
  | e :: es =>
    let s' := (stepEvent ws s e).1
    (if anyHeld s.pressed = true ∧ anyHeld s'.pressed = false then 1 else 0) +
      countIdleTransitions ws s' es

/-- Number of events in a run that are keyups of a mapped movement key
after which zero movement keys are held. -/
def countEmptyKeyups (ws : Option ReadyState) (s : InputState) :
    List KeyEvent → Nat
  | [] => 0
  | e :: es =>
    let s' := (stepEvent ws s e).1
    (match e with
     | KeyEvent.up k =>
       if (lookupKey movementKeys k).isSome ∧ anyHeld s'.pressed = false then 1 else 0
     | KeyEvent.down _ => 0) +
      countEmptyKeyups ws s' es

/-- Constant `MOVEMENT_INTERVAL`: minimum milliseconds between movement sends. -/
def MOVEMENT_INTERVAL : Nat := 150

/-- One firing of the 50 ms poll timer inside `startMovementLoop`:
given `lastMovementTime` and the current time, decide whether to send
(`now - lastMovementTime >= MOVEMENT_INTERVAL`) and update
`lastMovementTime`. -/
def movementTick (last now : Nat) : Bool × Nat :=
  if MOVEMENT_INTERVAL ≤ now - last then (true, now) else (false, last)

/-- State of the movement loop after the immediate initial send (at
time 0) and `n` poll-timer firings at 50 ms spacing, while a movement
key stays held and the socket stays open: number of movement commands
sent so far, and `lastMovementTime`. -/
def movementLoopCount : Nat → Nat × Nat
  | 0 => (1, 0)
  | n + 1 =>
    let r := movementLoopCount n
    let t := movementTick r.2 (50 * (n + 1))
    (if t.1 then r.1 + 1 else r.1, t.2)

/-- JS `String.prototype.startsWith`, embedded on the underlying
character list. -/
def strStartsWith (s p : String) : Bool :=
  p.data.isPrefixOf s.data

/-- One slot transformation of `preloadAvatarImages`: a string starting
with `data:` is replaced by a decoded image handle for that data;
anything else (an already-decoded handle, or a non-`data:` string) is
left as it is. -/
def materializeSlot : FrameSlot → FrameSlot
  | FrameSlot.raw s => if strStartsWith s "data:" then FrameSlot.img s else FrameSlot.raw s
  | FrameSlot.img s => FrameSlot.img s

/-- Materialize every frame slot of one avatar definition. -/
def materializeAvatar (a : Avatar) : Avatar :=
  { a with frames := a.frames.map (fun kv => (kv.1, kv.2.map materializeSlot)) }

/-- The function `preloadAvatarImages`: scan every avatar in `gameState.avatars` and
materialize every frame slot in place. -/
def preloadAvatarImages (avatars : List (String × Avatar)) : List (String × Avatar) :=
  avatars.map (fun kv => (kv.1, materializeAvatar kv.2))

/-- An inbound server message, decoded (`handleServerMessage`'s
`switch` discriminates on `action`; `other` stands for any unknown
action, which is only logged). -/
inductive ServerMessage where
  | joinGame (success : Bool) (playerId : String)
      (players : List (String × Player)) (avatars : List (String × Avatar))
      (error : String)
  | playerJoined (player : Player) (avatar : Option Avatar)
  | playersMoved (players : List (String × Player))
  | playerLeft (playerId : String)
  | other
deriving DecidableEq, Repr

/-- Delete a key from a JS object (`delete gameState.players[id]`). -/
def deleteKey {α : Type} : List (String × α) → String → List (String × α)
  | [], _ => []
  | (k', v) :: rest, k => if k' = k then rest else (k', v) :: deleteKey rest k

/-- The `players_moved` branch of `handleServerMessage`:
`Object.assign` the partial map into `gameState.players`, then recenter
the viewport only when the update contains the local player and no
movement key is currently held (`updateMovementPrediction` is a no-op
because prediction is disabled). -/
def applyPlayersMoved (pressed : List (String × Bool)) (st : GameState)
    (update : List (String × Player)) : GameState :=
  let st' := { st with players := objectAssign st.players update }
  let myMoved :=
    match st.myPlayerId with
    | some pid => (lookupKey update pid).isSome
    | none => false
  if myMoved && !anyHeld pressed then centerViewportOnMyAvatar st' else st'

/-- The function `handleServerMessage`: dispatch one decoded inbound message to its
store mutation. -/
def handleServerMessage (pressed : List (String × Bool)) (st : GameState) :
    ServerMessage → GameState
  | ServerMessage.joinGame success pid players avatars _err =>
    if success then
      let st' := { st with myPlayerId := some pid, players := players, avatars := avatars }
      let st'' := { st' with avatars := preloadAvatarImages st'.avatars }
      centerViewportOnMyAvatar st''
    else st
  | ServerMessage.playerJoined p a =>
    let st' := { st with players := setKey st.players p.id p }
    (match a with
     | some av =>
       { st' with avatars := preloadAvatarImages (setKey st'.avatars av.name av) }
     | none => st')
  | ServerMessage.playersMoved update => applyPlayersMoved pressed st update
  | ServerMessage.playerLeft pid => { st with players := deleteKey st.players pid }
  | ServerMessage.other => st

/-! ### Association-list lemmas -/

theorem lookupKey_setKey_self {α : Type} (m : List (String × α)) (k : String) (v : α) :
    lookupKey (setKey m k v) k = some v := by
  induction m with
  | nil => simp [setKey, lookupKey]
  | cons hd tl ih =>
    obtain ⟨k', v'⟩ := hd
    by_cases h : k' = k
    · simp [setKey, h, lookupKey]
    · simp [setKey, h, lookupKey, ih]

theorem lookupKey_setKey_ne {α : Type} (m : List (String × α)) (k k' : String) (v : α)
    (h : k' ≠ k) : lookupKey (setKey m k v) k' = lookupKey m k' := by
  induction m with
  | nil => simp [setKey, lookupKey, Ne.symm h]
  | cons hd tl ih =>
    obtain ⟨k₀, v₀⟩ := hd
    by_cases h₀ : k₀ = k
    · subst h₀
      simp [setKey, lookupKey, Ne.symm h]
    · simp [setKey, h₀, lookupKey, ih]

theorem lookupKey_objectAssign_not_mem {α : Type} (source : List (String × α)) :
    ∀ (target : List (String × α)) (k : String), k ∉ source.map Prod.fst →
      lookupKey (objectAssign target source) k = lookupKey target k := by
  induction source with
  | nil => intro target k _; rfl
  | cons hd tl ih =>
    intro target k hk
    simp only [List.map_cons, List.mem_cons] at hk
    push_neg at hk
    have : objectAssign target (hd :: tl) = objectAssign (setKey target hd.1 hd.2) tl := rfl
    rw [this, ih _ k hk.2, lookupKey_setKey_ne _ _ _ _ hk.1]

theorem lookupKey_objectAssign_mem {α : Type} (source : List (String × α)) :
    ∀ (target : List (String × α)) (k : String) (v : α),
      (source.map Prod.fst).Nodup → lookupKey source k = some v →
      lookupKey (objectAssign target source) k = some v := by
  induction source with
  | nil => intro target k v _ hl; simp [lookupKey] at hl
  | cons hd tl ih =>
    intro target k v hnd hl
    obtain ⟨k₀, v₀⟩ := hd
    simp only [List.map_cons, List.nodup_cons] at hnd
    have hstep : objectAssign target ((k₀, v₀) :: tl) = objectAssign (setKey target k₀ v₀) tl := rfl
    by_cases h : k₀ = k
    · subst h
      simp only [lookupKey, if_pos rfl] at hl
      rw [hstep, lookupKey_objectAssign_not_mem tl _ k₀ hnd.1,
        lookupKey_setKey_self]
      exact hl
    · simp only [lookupKey, if_neg h] at hl
      rw [hstep]
      exact ih _ k v hnd.2 hl

theorem lookupKey_mem_of_some {α : Type} (m : List (String × α)) (k : String) (v : α)
    (h : lookupKey m k = some v) : k ∈ m.map Prod.fst := by
  induction m with
  | nil => simp [lookupKey] at h
  | cons hd tl ih =>
    obtain ⟨k₀, v₀⟩ := hd
    by_cases h₀ : k₀ = k
    · simp [h₀]
    · simp only [lookupKey, if_neg h₀] at h
      simp [ih h]

/-- The function `centerViewportOnMyAvatar` writes only the viewport: the player
map, avatar map and local id are untouched. -/
theorem centerViewport_preserves (st : GameState) :
    (centerViewportOnMyAvatar st).players = st.players ∧
    (centerViewportOnMyAvatar st).avatars = st.avatars ∧
    (centerViewportOnMyAvatar st).myPlayerId = st.myPlayerId ∧
    (centerViewportOnMyAvatar st).viewport.width = st.viewport.width ∧
    (centerViewportOnMyAvatar st).viewport.height = st.viewport.height := by
  rcases h1 : st.myPlayerId with _ | pid
  · simp [centerViewportOnMyAvatar, h1]
  · rcases h2 : lookupKey st.players pid with _ | p
    · simp [centerViewportOnMyAvatar, h1, h2]
    · simp [centerViewportOnMyAvatar, h1, h2]

/-- The `players_moved` handler always leaves
`objectAssign gameState.players update` in the player map, whether or
not it recenters the viewport. -/
theorem applyPlayersMoved_players (pressed : List (String × Bool)) (st : GameState)
    (update : List (String × Player)) :
    (applyPlayersMoved pressed st update).players = objectAssign st.players update := by
  rcases hid : st.myPlayerId with _ | pid
  · simp only [applyPlayersMoved, hid]
    split
    · exact (centerViewport_preserves _).1
    · rfl
  · simp only [applyPlayersMoved, hid]
    split
    · exact (centerViewport_preserves _).1
    · rfl

/-- C1: the `players_moved` branch of `handleServerMessage` performs a
shallow merge of the partial id→player map into the existing player
map: an id absent from the update keeps its entry unchanged, and an id
present in the update has its entry fully replaced by the update's
entry. -/
theorem C1_players_moved_shallow_merge (pressed : List (String × Bool)) (st : GameState)
    (update : List (String × Player)) (hnd : (update.map Prod.fst).Nodup) :
    (∀ id, id ∉ update.map Prod.fst →
      lookupKey (handleServerMessage pressed st (ServerMessage.playersMoved update)).players id =
        lookupKey st.players id) ∧
    (∀ id p, lookupKey update id = some p →
      lookupKey (handleServerMessage pressed st (ServerMessage.playersMoved update)).players id =
        some p) := by
  have hp : (handleServerMessage pressed st (ServerMessage.playersMoved update)).players =
      objectAssign st.players update := applyPlayersMoved_players pressed st update
  constructor
  · intro id hid
    rw [hp, lookupKey_objectAssign_not_mem update st.players id hid]
  · intro id p hlp
    rw [hp, lookupKey_objectAssign_mem update st.players id p hnd hlp]

/-- Witness for C1: players {A, B, C}, update {B ↦ B'}; after the merge
A and C are unchanged and B is the update's record. -/
theorem C1_players_moved_shallow_merge_witness :
    lookupKey (handleServerMessage []
        ⟨some "A", [("A", ⟨"A", "alice", 100, 100, "south", false, "av", 0⟩),
                    ("B", ⟨"B", "bob", 200, 200, "south", false, "av", 0⟩),
                    ("C", ⟨"C", "carol", 300, 300, "south", false, "av", 0⟩)],
          [], ⟨0, 0, 800, 600⟩⟩
        (ServerMessage.playersMoved [("B", ⟨"B", "bob", 250, 260, "east", true, "av", 1⟩)])).players
      "A" = some ⟨"A", "alice", 100, 100, "south", false, "av", 0⟩ ∧
    lookupKey (handleServerMessage []
        ⟨some "A", [("A", ⟨"A", "alice", 100, 100, "south", false, "av", 0⟩),
                    ("B", ⟨"B", "bob", 200, 200, "south", false, "av", 0⟩),
                    ("C", ⟨"C", "carol", 300, 300, "south", false, "av", 0⟩)],
          [], ⟨0, 0, 800, 600⟩⟩
        (ServerMessage.playersMoved [("B", ⟨"B", "bob", 250, 260, "east", true, "av", 1⟩)])).players
      "B" = some ⟨"B", "bob", 250, 260, "east", true, "av", 1⟩ := by
  constructor
  · exact ((C1_players_moved_shallow_merge _ _ _ (by decide)).1 "A" (by decide)).trans (by decide)
  · exact (C1_players_moved_shallow_merge _ _ _ (by decide)).2 "B" _ (by decide)

/-- C2: whenever `centerViewportOnMyAvatar` actually recenters (local
id set and present in the player map) and the viewport is no larger
than the 2048×2048 world, the resulting origin satisfies
`0 ≤ x ≤ 2048 − width` and `0 ≤ y ≤ 2048 − height`. -/
theorem C2_viewport_clamped (st : GameState) (pid : String) (p : Player)
    (h1 : st.myPlayerId = some pid) (h2 : lookupKey st.players pid = some p)
    (hw : st.viewport.width ≤ 2048) (hh : st.viewport.height ≤ 2048) :
    0 ≤ (centerViewportOnMyAvatar st).viewport.x ∧
    (centerViewportOnMyAvatar st).viewport.x ≤ 2048 - st.viewport.width ∧
    0 ≤ (centerViewportOnMyAvatar st).viewport.y ∧
    (centerViewportOnMyAvatar st).viewport.y ≤ 2048 - st.viewport.height := by
  simp only [centerViewportOnMyAvatar, h1, h2]
  refine ⟨le_max_left _ _, max_le (by linarith) (min_le_right _ _),
    le_max_left _ _, max_le (by linarith) (min_le_right _ _)⟩

/-- Witness for C2: a player at (1000, 1000) with an 800×600 viewport
lands the origin inside the world. -/
theorem C2_viewport_clamped_witness :
    0 ≤ (centerViewportOnMyAvatar
        ⟨some "p1", [("p1", ⟨"p1", "tim", 1000, 1000, "south", false, "av", 0⟩)],
          [], ⟨0, 0, 800, 600⟩⟩).viewport.x ∧
    (centerViewportOnMyAvatar
        ⟨some "p1", [("p1", ⟨"p1", "tim", 1000, 1000, "south", false, "av", 0⟩)],
          [], ⟨0, 0, 800, 600⟩⟩).viewport.x ≤ 2048 - 800 ∧
    0 ≤ (centerViewportOnMyAvatar
        ⟨some "p1", [("p1", ⟨"p1", "tim", 1000, 1000, "south", false, "av", 0⟩)],
          [], ⟨0, 0, 800, 600⟩⟩).viewport.y ∧
    (centerViewportOnMyAvatar
        ⟨some "p1", [("p1", ⟨"p1", "tim", 1000, 1000, "south", false, "av", 0⟩)],
          [], ⟨0, 0, 800, 600⟩⟩).viewport.y ≤ 2048 - 600 :=
  C2_viewport_clamped _ "p1" ⟨"p1", "tim", 1000, 1000, "south", false, "av", 0⟩
    rfl (by decide) (by norm_num) (by norm_num)

/-! ### Movement-loop throttling -/

/-- Closed form of the movement-loop state: after `n` poll firings the
loop has sent `n / 3 + 1` commands and `lastMovementTime` is the last
multiple of 150 reached. -/
theorem movementLoopCount_eq (n : Nat) :
    movementLoopCount n = (n / 3 + 1, 150 * (n / 3)) := by
  induction n with
  | zero => rfl
  | succ n ih =>
    simp only [movementLoopCount, ih, movementTick, MOVEMENT_INTERVAL]
    split <;> simp_all [Prod.ext_iff] <;> omega

/-- C3: with a movement key held continuously over `n` poll-timer
firings (50 ms apart, duration `T = 50·n` ms), the loop has emitted
exactly `⌊T / 150⌋ + 1` move commands — one immediately on the
transition into the moving state, then one only on firings at which at
least `MOVEMENT_INTERVAL` (150 ms) has elapsed since the last emission,
not one per 50 ms firing. -/
theorem C3_movement_throttle (n : Nat) :
    (movementLoopCount n).1 = 50 * n / 150 + 1 := by
  rw [movementLoopCount_eq]
  omega

/-! ### Input controller: stop emission -/

theorem countStops_sendMoveCommand (ws : Option ReadyState) (d : String) :
    countStops (sendMoveCommand ws d) = 0 := by
  unfold sendMoveCommand
  split <;> simp [countStops]

theorem countStops_sendMovementCommand (ws : Option ReadyState) (p : List (String × Bool)) :
    countStops (sendMovementCommand ws p) = 0 := by
  simp only [sendMovementCommand]
  split
  · split
    · simp [countStops]
    · split
      · exact countStops_sendMoveCommand _ _
      · exact countStops_sendMoveCommand _ _
  · simp [countStops]

theorem countStops_append (a b : List OutMsg) :
    countStops (a ++ b) = countStops a + countStops b := by
  simp [countStops, List.filter_append]

/-- One keyboard event emits a `stop` exactly when it is a keyup of a
mapped movement key after which no movement key is held. -/
theorem countStops_stepEvent (ws : Option ReadyState) (s : InputState) (e : KeyEvent)
    (hws : wsIsOpen ws = true) :
    countStops (stepEvent ws s e).2 =
      (match e with
       | KeyEvent.up k =>
         if (lookupKey movementKeys k).isSome ∧
             anyHeld (stepEvent ws s e).1.pressed = false then 1 else 0
       | KeyEvent.down _ => 0) := by
  cases e with
  | down k =>
    rcases h : lookupKey movementKeys k with _ | d
    · simp [stepEvent, handleKeydown, h, countStops]
    · by_cases hh : isHeld s.pressed k
      · simp [stepEvent, handleKeydown, h, hh, countStops]
      · by_cases ht : s.timerOn
        · simp [stepEvent, handleKeydown, h, hh, ht, countStops]
        · simp [stepEvent, handleKeydown, h, hh, ht, countStops_sendMovementCommand]
  | up k =>
    rcases h : lookupKey movementKeys k with _ | d
    · simp [stepEvent, handleKeyup, h, countStops]
    · by_cases ha : anyHeld (setKey s.pressed k false)
      · simp [stepEvent, handleKeyup, h, ha, countStops]
      · simp [stepEvent, handleKeyup, h, ha, countStops, sendStopCommand, hws]

/-- Over any run of keyboard events, the number of `stop` messages
equals the number of mapped keyups that end with zero held keys. -/
theorem countStops_runEvents (ws : Option ReadyState) (hws : wsIsOpen ws = true) :
    ∀ (events : List KeyEvent) (s : InputState),
      countStops (runEvents ws s events).2 = countEmptyKeyups ws s events := by
  intro events
  induction events with
  | nil => intro s; rfl
  | cons e es ih =>
    intro s
    simp only [runEvents, countEmptyKeyups]
    rw [countStops_append, countStops_stepEvent ws s e hws, ih]

/-- C4 counterexample: starting from the idle input state (no key
held), the single event "keyup of the mapped key w" makes the
controller emit one `stop` message although no transition from ≥1 held
keys to 0 held keys occurred — refuting "exactly one stop message per
such transition". -/
theorem C4_stop_transition_counterexample :
    countStops (runEvents (some ReadyState.opened) ⟨[], false⟩ [KeyEvent.up "w"]).2 = 1 ∧
    countIdleTransitions (some ReadyState.opened) ⟨[], false⟩ [KeyEvent.up "w"] = 0 := by
  decide

/-- C4 (amended): with the socket open, a `stop` message is emitted
exactly on each keyup of a mapped movement key after which zero
movement keys are held — one per transition from ≥1 held keys to 0
held keys, but also one on a spurious keyup of an untracked mapped key
while already idle; zero `stop` messages are emitted while any
movement key remains held, and the movement timer is cancelled exactly
on those same keyups. -/
theorem C4_stop_per_empty_keyup (s : InputState) (events : List KeyEvent) :
    (countStops (runEvents (some ReadyState.opened) s events).2 =
      countEmptyKeyups (some ReadyState.opened) s events) ∧
    (∀ k, (stepEvent (some ReadyState.opened) s (KeyEvent.up k)).1.timerOn =
      (if (lookupKey movementKeys k).isSome ∧
          anyHeld (stepEvent (some ReadyState.opened) s (KeyEvent.up k)).1.pressed = false
        then false else s.timerOn)) ∧
    (∀ e, anyHeld (stepEvent (some ReadyState.opened) s e).1.pressed = true →
      countStops (stepEvent (some ReadyState.opened) s e).2 = 0) := by
  refine ⟨countStops_runEvents (some ReadyState.opened) rfl events s, ?_, ?_⟩
  · intro k
    rcases h : lookupKey movementKeys k with _ | d
    · simp [stepEvent, handleKeyup, h]
    · by_cases ha : anyHeld (setKey s.pressed k false)
      · simp [stepEvent, handleKeyup, h, ha]
      · simp [stepEvent, handleKeyup, h, ha]
  · intro e he
    rw [countStops_stepEvent (some ReadyState.opened) s e rfl]
    cases e with
    | down k => rfl
    | up k => simp [he]

/-- Witness for C4 (amended): releasing w while a is still held emits
no stop message. -/
theorem C4_stop_per_empty_keyup_witness :
    countStops (stepEvent (some ReadyState.opened) ⟨[("w", true), ("a", true)], true⟩
      (KeyEvent.up "w")).2 = 0 :=
  (C4_stop_per_empty_keyup ⟨[("w", true), ("a", true)], true⟩ []).2.2
    (KeyEvent.up "w") (by decide)

/-! ### Input controller: keyup of an untracked key -/

theorem isHeld_setKey_false (p : List (String × Bool)) (k : String)
    (h : isHeld p k = false) (k' : String) :
    isHeld (setKey p k false) k' = isHeld p k' := by
  by_cases hk : k' = k
  · subst hk
    have hl : isHeld (setKey p k' false) k' = false := by
      simp [isHeld, lookupKey_setKey_self]
    rw [hl, h]
  · simp [isHeld, lookupKey_setKey_ne _ _ _ _ hk]

theorem anyHeld_setKey_false (p : List (String × Bool)) (k : String)
    (h : isHeld p k = false) : anyHeld (setKey p k false) = anyHeld p := by
  induction p with
  | nil => simp [setKey, anyHeld]
  | cons hd tl ih =>
    obtain ⟨k₀, v₀⟩ := hd
    by_cases hk : k₀ = k
    · subst hk
      have hv : v₀ = false := by simpa [isHeld, lookupKey] using h
      subst hv
      simp [setKey, anyHeld]
    · have h' : isHeld tl k = false := by simpa [isHeld, lookupKey, hk] using h
      have ih' := ih h'
      simp only [anyHeld] at ih'
      simp [setKey, hk, anyHeld, ih']

/-- C6 counterexample: in the idle state, a keyup of the mapped key a
(which was never tracked as held) is not a no-op: it emits a `stop`
message. -/
theorem C6_untracked_keyup_counterexample :
    isHeld ([] : List (String × Bool)) "a" = false ∧
    (stepEvent (some ReadyState.opened) ⟨[], false⟩ (KeyEvent.up "a")).2 = [OutMsg.stop] := by
  decide

/-- C6 (amended): keyup of an unmapped key is a no-op. Keyup of a
mapped key not currently tracked as held leaves the effective held-key
set unchanged; while any movement key is held it sends nothing and
leaves the timer unchanged, but when no movement key is held it emits
one `stop` message (`sendStopCommand`) and the timer field is
(re)cleared. -/
theorem C6_untracked_keyup (ws : Option ReadyState) (s : InputState) (k : String) :
    (lookupKey movementKeys k = none → stepEvent ws s (KeyEvent.up k) = (s, [])) ∧
    ((lookupKey movementKeys k).isSome = true → isHeld s.pressed k = false →
      (∀ k', isHeld (stepEvent ws s (KeyEvent.up k)).1.pressed k' = isHeld s.pressed k') ∧
      (anyHeld s.pressed = true →
        (stepEvent ws s (KeyEvent.up k)).2 = [] ∧
        (stepEvent ws s (KeyEvent.up k)).1.timerOn = s.timerOn) ∧
      (anyHeld s.pressed = false →
        (stepEvent ws s (KeyEvent.up k)).2 = sendStopCommand ws ∧
        (stepEvent ws s (KeyEvent.up k)).1.timerOn = false)) := by
  constructor
  · intro h
    simp [stepEvent, handleKeyup, h]
  · intro hm hh
    rcases hsome : lookupKey movementKeys k with _ | d
    · rw [hsome] at hm; simp at hm
    · refine ⟨?_, ?_, ?_⟩
      · intro k'
        by_cases ha : anyHeld (setKey s.pressed k false)
        · simp [stepEvent, handleKeyup, hsome, ha, isHeld_setKey_false s.pressed k hh k']
        · simp [stepEvent, handleKeyup, hsome, ha, isHeld_setKey_false s.pressed k hh k']
      · intro hah
        have ha' : anyHeld (setKey s.pressed k false) = true := by
          rw [anyHeld_setKey_false s.pressed k hh]; exact hah
        simp [stepEvent, handleKeyup, hsome, ha']
      · intro hah
        have ha' : anyHeld (setKey s.pressed k false) = false := by
          rw [anyHeld_setKey_false s.pressed k hh]; exact hah
        simp [stepEvent, handleKeyup, hsome, ha']

/-- Witness for C6 (amended): keyup of w (untracked) while s is held
sends nothing and keeps the timer running. -/
theorem C6_untracked_keyup_witness :
    (stepEvent (some ReadyState.opened) ⟨[("s", true)], true⟩ (KeyEvent.up "w")).2 = [] ∧
    (stepEvent (some ReadyState.opened) ⟨[("s", true)], true⟩ (KeyEvent.up "w")).1.timerOn = true :=
  ((C6_untracked_keyup (some ReadyState.opened) ⟨[("s", true)], true⟩ "w").2
    (by decide) (by decide)).2.1 (by decide)

/-! ### Direction resolution -/

/-- When the held directions include a horizontal one, `find` locates a
first element that is `left` or `right`. -/
theorem find_horizontal (ds : List String)
    (h : (jsIncludes ds "left" || jsIncludes ds "right") = true) :
    ∃ a, ds.find? (fun d => d == "left" || d == "right") = some a ∧
      (a = "left" ∨ a = "right") := by
  induction ds with
  | nil => simp [jsIncludes] at h
  | cons x xs ih =>
    cases hx : (x == "left" || x == "right") with
    | true => exact ⟨x, List.find?_cons_of_pos _ hx, by simpa using hx⟩
    | false =>
      have hx12 := Bool.or_eq_false_iff.mp hx
      have h' : (jsIncludes xs "left" || jsIncludes xs "right") = true := by
        simpa [jsIncludes, List.any_cons, hx12.1, hx12.2] using h
      obtain ⟨a, hfa, hra⟩ := ih h'
      exact ⟨a, by rw [List.find?_cons_of_neg _ (by simp [hx])]; exact hfa, hra⟩

/-- C5: `getPrimaryDirection` gives horizontal directions priority —
whenever `left` or `right` is among the held directions the result is
horizontal — and with no horizontal key held it falls back to
`directions[0]`, the first held direction in the iteration order of
the held-key mapping; `sendMovementCommand` transmits at most one
direction per tick; held keys {w, a} (up and left) resolve to `left`
and {w} alone resolves to `up`. -/
theorem C5_direction_priority :
    (∀ ds : List String, (jsIncludes ds "left" || jsIncludes ds "right") = true →
      getPrimaryDirection ds = "left" ∨ getPrimaryDirection ds = "right") ∧
    (∀ ds : List String, (jsIncludes ds "left" || jsIncludes ds "right") = false →
      getPrimaryDirection ds = ds.getD 0 "") ∧
    (∀ (ws : Option ReadyState) (pressed : List (String × Bool)),
      (sendMovementCommand ws pressed).length ≤ 1) ∧
    directionsOf [("w", true), ("a", true)] = ["up", "left"] ∧
    sendMovementCommand (some ReadyState.opened) [("w", true), ("a", true)] =
      [OutMsg.move "left"] ∧
    sendMovementCommand (some ReadyState.opened) [("w", true)] = [OutMsg.move "up"] := by
  refine ⟨?_, ?_, ?_, by decide, by decide, by decide⟩
  · intro ds h
    obtain ⟨a, hfa, hra⟩ := find_horizontal ds h
    simpa [getPrimaryDirection, h, hfa] using hra
  · intro ds h
    simp [getPrimaryDirection, h]
  · intro ws pressed
    simp only [sendMovementCommand]
    split
    · split
      · simp
      · split
        · unfold sendMoveCommand; split <;> simp
        · unfold sendMoveCommand; split <;> simp
    · simp

/-- Witness for C5: held directions {up, left} resolve to a horizontal
direction. -/
theorem C5_direction_priority_witness :
    getPrimaryDirection ["up", "left"] = "left" ∨
      getPrimaryDirection ["up", "left"] = "right" :=
  C5_direction_priority.1 ["up", "left"] (by decide)

/-! ### Viewport recentering on `players_moved` -/

/-- C7: in the `players_moved` handler, an update that does not
contain the local player (changes only remote players) leaves the
viewport unchanged; an update containing the local player recenters
the viewport unless a movement key is currently held, in which case
recentering is suppressed and the viewport is unchanged. -/
theorem C7_viewport_recentering (pressed : List (String × Bool)) (st : GameState)
    (update : List (String × Player)) (pid : String) (h1 : st.myPlayerId = some pid) :
    (lookupKey update pid = none →
      (applyPlayersMoved pressed st update).viewport = st.viewport) ∧
    (anyHeld pressed = true →
      (applyPlayersMoved pressed st update).viewport = st.viewport) ∧
    ((lookupKey update pid).isSome = true → anyHeld pressed = false →
      applyPlayersMoved pressed st update =
        centerViewportOnMyAvatar { st with players := objectAssign st.players update }) := by
  refine ⟨?_, ?_, ?_⟩
  · intro h
    simp [applyPlayersMoved, h1, h]
  · intro h
    simp [applyPlayersMoved, h1, h]
  · intro hp hm
    simp [applyPlayersMoved, h1, hp, hm]

/-- Witness for C7: an update touching only the remote player p2
leaves the viewport of the local player p1 unchanged. -/
theorem C7_viewport_recentering_witness :
    (applyPlayersMoved []
        ⟨some "p1", [("p1", ⟨"p1", "tim", 1000, 1000, "south", false, "av", 0⟩)],
          [], ⟨0, 0, 800, 600⟩⟩
        [("p2", ⟨"p2", "bob", 50, 50, "north", true, "av", 2⟩)]).viewport =
      (⟨0, 0, 800, 600⟩ : Viewport) :=
  (C7_viewport_recentering []
      ⟨some "p1", [("p1", ⟨"p1", "tim", 1000, 1000, "south", false, "av", 0⟩)],
        [], ⟨0, 0, 800, 600⟩⟩
      [("p2", ⟨"p2", "bob", 50, 50, "north", true, "av", 2⟩)] "p1" rfl).1 (by decide)

/-! ### Avatar frame materialization -/

theorem materializeSlot_idem (x : FrameSlot) :
    materializeSlot (materializeSlot x) = materializeSlot x := by
  cases x with
  | raw s =>
    by_cases h : strStartsWith s "data:"
    · simp [materializeSlot, h]
    · simp [materializeSlot, h]
  | img s => rfl

theorem materializeAvatar_idem (a : Avatar) :
    materializeAvatar (materializeAvatar a) = materializeAvatar a := by
  have hf : materializeSlot ∘ materializeSlot = materializeSlot :=
    funext materializeSlot_idem
  have hkv : ((fun kv : String × List FrameSlot => (kv.1, kv.2.map materializeSlot)) ∘
      (fun kv => (kv.1, kv.2.map materializeSlot))) =
      (fun kv : String × List FrameSlot => (kv.1, kv.2.map materializeSlot)) := by
    funext kv
    simp [Function.comp, List.map_map, hf]
  simp [materializeAvatar, List.map_map, hkv]

theorem preloadAvatarImages_idem (avatars : List (String × Avatar)) :
    preloadAvatarImages (preloadAvatarImages avatars) = preloadAvatarImages avatars := by
  have hg : ((fun kv : String × Avatar => (kv.1, materializeAvatar kv.2)) ∘
      (fun kv => (kv.1, materializeAvatar kv.2))) =
      (fun kv : String × Avatar => (kv.1, materializeAvatar kv.2)) := by
    funext kv
    simp [Function.comp, materializeAvatar_idem]
  simp [preloadAvatarImages, List.map_map, hg]

/-- C8: `preloadAvatarImages` is idempotent — a second invocation
leaves every already-decoded slot referencing the same handle; a slot
holding a raw `data:`-URI string is replaced by a decoded handle, and
an already-decoded slot is left untouched by the type check guarding
the decode. -/
theorem C8_preload_idempotent :
    (∀ avatars : List (String × Avatar),
      preloadAvatarImages (preloadAvatarImages avatars) = preloadAvatarImages avatars) ∧
    (∀ s : String, strStartsWith s "data:" = true →
      materializeSlot (FrameSlot.raw s) = FrameSlot.img s) ∧
    (∀ s : String, materializeSlot (FrameSlot.img s) = FrameSlot.img s) := by
  refine ⟨preloadAvatarImages_idem, ?_, fun s => rfl⟩
  intro s h
  simp [materializeSlot, h]

/-- Witness for C8: a raw `data:` slot is decoded into a handle for the
same data. -/
theorem C8_preload_idempotent_witness :
    materializeSlot (FrameSlot.raw "data:abc") = FrameSlot.img "data:abc" :=
  C8_preload_idempotent.2.1 "data:abc" (by decide)

/-! ### Join handling and disconnected sends -/

/-- C9: a `join_game` message with `success: false` leaves the store
untouched — the whole game state (player map, avatar map, local id,
viewport) is exactly what it was; with `success: true` the local id is
recorded and the player and avatar maps are populated from the
snapshot (the avatars with their frames materialized). -/
theorem C9_join_failure_no_mutation (pressed : List (String × Bool)) (st : GameState)
    (pid : String) (players : List (String × Player)) (avatars : List (String × Avatar))
    (err : String) :
    handleServerMessage pressed st (ServerMessage.joinGame false pid players avatars err) = st ∧
    (handleServerMessage pressed st
      (ServerMessage.joinGame true pid players avatars err)).myPlayerId = some pid ∧
    (handleServerMessage pressed st
      (ServerMessage.joinGame true pid players avatars err)).players = players ∧
    (handleServerMessage pressed st
      (ServerMessage.joinGame true pid players avatars err)).avatars =
        preloadAvatarImages avatars := by
  refine ⟨rfl, ?_, ?_, ?_⟩
  · simp only [handleServerMessage, if_pos trivial]
    rw [(centerViewport_preserves _).2.2.1]
  · simp only [handleServerMessage, if_pos trivial]
    rw [(centerViewport_preserves _).1]
  · simp only [handleServerMessage, if_pos trivial]
    rw [(centerViewport_preserves _).2.1]

/-- C10: `sendMoveCommand` and `sendStopCommand` are silently inert
when the socket is absent or not in the OPEN state: no message goes
out (and, the guard being an early return, nothing is raised and
nothing else is touched). -/
theorem C10_send_silent_when_not_open (ws : Option ReadyState) (direction : String)
    (h : wsIsOpen ws = false) :
    sendMoveCommand ws direction = [] ∧ sendStopCommand ws = [] := by
  simp [sendMoveCommand, sendStopCommand, h]

/-- Witness for C10: with no socket at all, a move and a stop send
nothing. -/
theorem C10_send_silent_when_not_open_witness :
    sendMoveCommand none "up" = [] ∧ sendStopCommand none = [] :=
  C10_send_silent_when_not_open none "up" (by decide)

end MMO
